import Mathlib

/-!
Shallow embedding of `fedjax/datasets/stackoverflow.py`.

The module has three parts: a vocabulary loader (`default_vocab`), a
tokenizer (`StackoverflowTokenizer` with its batch transform
`token_to_ids` / `as_preprocess_batch`), and a dataset loader
(`load_split`, `preprocess_client`).  External collaborators
(`tf.lookup.StaticVocabularyTable`, `tf.strings.split`,
`RaggedTensor.to_tensor`, file reading, downloads) are embedded by their
documented behaviour at the call sites used here:
* `tf.strings.split(tokens, sep=' ')` acts per string like Python's
  `str.split(' ')`, embedded as `pySplitSpace` (an empty string yields
  `[""]`).
* `StaticVocabularyTable` maps a key present in the vocabulary to its
  first index and any other key to
  `vocab_size + fingerprint(key) % num_oov_buckets`; the fingerprint is
  an abstract `String → Nat` parameter carried by the tokenizer state.
* `RaggedTensor.to_tensor(PAD, shape=[N, max_length])` truncates each
  row to `max_length` and right-pads shorter rows with `PAD`.
* the remote files are passed in as explicit data (a list of lines for
  the vocabulary file, a path for the sqlite store).
-/

namespace Stackoverflow

/-- Special id `PAD = 0` (`StackoverflowTokenizer.PAD`). -/
def PAD : Nat := 0

/-- Special id `BOS = 1` (`StackoverflowTokenizer.BOS`). -/
def BOS : Nat := 1

/-- Special id `EOS = 2` (`StackoverflowTokenizer.EOS`). -/
def EOS : Nat := 2

/-- `SPLITS = ('train', 'held_out', 'test')`. -/
def SPLITS : List String := ["train", "held_out", "test"]

/-- A value of a feature column: stackoverflow records hold either bytes
arrays or integer arrays. -/
inductive Value where
  | bytes : List String → Value
  | ints : List Int → Value
deriving DecidableEq, Repr

/-- A client record: a finite mapping from feature name to array,
mirroring the Python `dict` of numpy arrays (`client_datasets.Examples`). -/
def Examples : Type := List (String × Value)

/-- Modelled from the spec: `downloads.maybe_download(url, cache_dir) ->
local_path` (the download/cache collaborator is not under `src/`); it
resolves the remote URL to a local cached file path. -/
def maybe_download (url : String) (cache_dir : Option String) : String :=
  match cache_dir with
  | none => url
  | some d => d ++ "/" ++ url

/-- Modelled from the spec: `sqlite_federated_data.SQLiteFederatedData.new`
(not under `src/`) constructs a federated-data handle over a local cached
store.  Only the handle's existence matters to the claims. -/
structure FederatedData where
  path : String
deriving DecidableEq, Repr

/-- `load_split(split, mode='sqlite', cache_dir=None)`: validates the split
name, validates that `cache_dir` is only supplied in `'sqlite'` mode,
then either returns a handle over a downloaded sqlite store or fails on
an unsupported mode.  A raised `ValueError` is embedded as `.error`. -/
def load_split (split : String) (mode : String) (cache_dir : Option String) :
    Except String FederatedData :=
  if split ∉ SPLITS then
    .error ("Invalid split=" ++ split)
  else if cache_dir ≠ none ∧ mode ≠ "sqlite" then
    .error "Caching locally is only supported in sqlite mode"
  else if mode = "sqlite" then
    .ok ⟨maybe_download
      ("https://storage.googleapis.com/gresearch/fedjax/stackoverflow/stackoverflow_"
        ++ split ++ ".sqlite") cache_dir⟩
  else
    .error ("Unsupported mode=" ++ mode)

/-- `preprocess_client(client_id, examples)`: attaches
`domain_id = (examples['type'] == b'answer').astype(np.int32)` and keeps
only `tokens`.  The dict accesses `examples['type']` / `examples['tokens']`
raise `KeyError` when missing (embedded as `.error`); per the loader's
documented features, `type` is a bytes array. -/
def preprocess_client (_client_id : String) (examples : Examples) :
    Except String Examples :=
  match examples.lookup "type", examples.lookup "tokens" with
  | some (.bytes types), some toks =>
      .ok [("domain_id",
             .ints (types.map (fun t => if t = "answer" then (1 : Int) else 0))),
           ("tokens", toks)]
  | _, _ => .error "KeyError"

/-- Split a character list at every character satisfying `p`; `n`
delimiters yield `n + 1` fields (possibly empty), the semantics shared
by Python's `str.split(sep)` and `tf.strings.split(sep=...)`. -/
def splitChars (p : Char → Bool) : List Char → List (List Char)
  | [] => [[]]
  | c :: cs =>
    if p c then [] :: splitChars p cs
    else
      match splitChars p cs with
      | [] => [[c]]
      | w :: ws => (c :: w) :: ws

/-- Python's `str.split(' ')`, the per-string behaviour of
`tf.strings.split(tokens, sep=' ')`: fields between single spaces, empty
fields kept, and `""` yields `[""]`. -/
def pySplitSpace (s : String) : List String :=
  (splitChars (fun c => c = ' ') s.data).map String.mk

/-- Python's no-argument `str.split()`: split on whitespace, discarding
empty fields. -/
def pySplitWs (s : String) : List String :=
  ((splitChars Char.isWhitespace s.data).map String.mk).filter (fun w => w ≠ "")

/-- `word, _ = line.split()`: tuple unpacking succeeds exactly when the
line has two whitespace-separated fields, else raises `ValueError`. -/
def unpackWordCount (line : String) : Except String String :=
  match pySplitWs line with
  | [word, _] => .ok word
  | _ => .error ("ValueError: cannot unpack line " ++ line)

/-- `itertools.islice(f, vocab_size)`: the first `vocab_size` lines, or
all lines when `vocab_size` is `None`. -/
def islice (n : Option Nat) (xs : List String) : List String :=
  match n with
  | none => xs
  | some k => xs.take k

/-- `default_vocab(vocab_size)`: iterates over the first `vocab_size`
lines of the remote word-count file (passed in as `file_lines`),
unpacking each line as `word, _ = line.split()` and collecting the words.
The first malformed line aborts with the unpack `ValueError`. -/
def default_vocab (vocab_size : Option Nat) (file_lines : List String) :
    Except String (List String) :=
  (islice vocab_size file_lines).mapM unpackWordCount

/-- Tokenizer state after `StackoverflowTokenizer.__init__`: the
(possibly truncated) vocabulary handed to the `StaticVocabularyTable`,
the OOV bucket count, and the table's abstract fingerprint function. -/
structure StackoverflowTokenizer where
  vocab : List String
  num_oov_buckets : Nat
  fingerprint : String → Nat

/-- The vocabulary resolution in `StackoverflowTokenizer.__init__`:
`None` loads `default_vocab(vocab_size)`; an explicit list is truncated
to `vocab_size` words unless `vocab_size is None`. -/
def initVocab (vocab : Option (List String)) (vocab_size : Option Nat)
    (file_lines : List String) : Except String (List String) :=
  match vocab with
  | none => default_vocab vocab_size file_lines
  | some v =>
    match vocab_size with
    | none => .ok v
    | some k => .ok (v.take k)

/-- The Python default value of the `vocab_size` argument of
`StackoverflowTokenizer.__init__`. -/
def defaultVocabSize : Option Nat := some 10000

/-- `StackoverflowTokenizer.__init__(vocab, vocab_size, num_oov_buckets)`
given the remote vocabulary file's lines and the table's fingerprint
function. -/
def initTokenizer (fingerprint : String → Nat) (vocab : Option (List String))
    (vocab_size : Option Nat) (num_oov_buckets : Nat)
    (file_lines : List String) : Except String StackoverflowTokenizer :=
  (initVocab vocab vocab_size file_lines).map
    (fun v => ⟨v, num_oov_buckets, fingerprint⟩)

/-- `self._table.lookup(word)`: a `StaticVocabularyTable` maps a word in
the vocabulary to its index, and any other word to
`len(vocab) + fingerprint(word) % num_oov_buckets`. -/
def tableLookup (t : StackoverflowTokenizer) (w : String) : Nat :=
  if w ∈ t.vocab then t.vocab.indexOf w
  else t.vocab.length + t.fingerprint w % t.num_oov_buckets

/-- The full id sequence of one tokens string inside `token_to_ids`:
space-split words (`tf.strings.split(tokens, sep=' ')`), table lookup
plus the reserved-id offset 3, with `BOS` prepended and `EOS` appended. -/
def idsOf (t : StackoverflowTokenizer) (s : String) : List Nat :=
  [BOS] ++ (pySplitSpace s).map (fun w => tableLookup t w + 3) ++ [EOS]

/-- `RaggedTensor.to_tensor(PAD, shape=[N, max_length])` acting on one
row: truncate to `max_length`, right-pad with `PAD` to `max_length`. -/
def padTo (max_length : Nat) (row : List Nat) : List Nat :=
  row.take max_length ++ List.replicate (max_length - row.length) PAD

/-- The batch transform `token_to_ids` of `as_preprocess_batch(max_length)`:
per tokens string, build the id sequence, take `x = token_ids[..., :-1]`
and `y = token_ids[..., 1:]`, then densify both to `[N, max_length]`
with `to_tensor(PAD, shape)`. -/
def token_to_ids (t : StackoverflowTokenizer) (max_length : Nat)
    (tokens : List String) : List (List Nat) × List (List Nat) :=
  let rows := tokens.map (idsOf t)
  (rows.map (fun r => padTo max_length r.dropLast),
   rows.map (fun r => padTo max_length (r.drop 1)))

/-- Spec formula for `x` before padding, quoted from the spec's words:
`x = ids[0 : max_length]`. -/
def specX (max_length : Nat) (ids : List Nat) : List Nat :=
  ids.take max_length

/-- Spec formula for `y` before padding, quoted from the spec's words:
`y = ids[1 : max_length+1]`. -/
def specY (max_length : Nat) (ids : List Nat) : List Nat :=
  (ids.take (max_length + 1)).drop 1

/-- A concrete tokenizer: explicit vocabulary `['a', 'b']`, one OOV
bucket, and a fingerprint function that is constantly `0`. -/
def tokAB : StackoverflowTokenizer := ⟨["a", "b"], 1, fun _ => 0⟩

/-! ### Helper lemmas -/

theorem padTo_length (m : Nat) (row : List Nat) : (padTo m row).length = m := by
  simp [padTo, List.length_take]
  omega

theorem padTo_take (m : Nat) (row : List Nat) :
    padTo m (row.take m) = padTo m row := by
  unfold padTo
  rw [List.take_take, Nat.min_self, List.length_take]
  congr 1
  congr 1
  omega

theorem padTo_of_le (m : Nat) (row : List Nat) (h : m ≤ row.length) :
    padTo m row = row.take m := by
  unfold padTo
  rw [Nat.sub_eq_zero_of_le h, List.replicate_zero, List.append_nil]

theorem padTo_mem_bound (m : Nat) (row : List Nat) (c : Nat)
    (hrow : ∀ v ∈ row, v < c) (hc : 0 < c) :
    ∀ v ∈ padTo m row, v < c := by
  intro v hv
  rcases List.mem_append.mp hv with h | h
  · exact hrow v (List.take_subset m row h)
  · rw [List.eq_of_mem_replicate h]
    simpa [PAD] using hc

theorem tableLookup_lt (t : StackoverflowTokenizer)
    (hb : 0 < t.num_oov_buckets) (w : String) :
    tableLookup t w < t.vocab.length + t.num_oov_buckets := by
  unfold tableLookup
  by_cases h : w ∈ t.vocab
  · rw [if_pos h]
    have := List.indexOf_lt_length.mpr h
    omega
  · rw [if_neg h]
    have := Nat.mod_lt (t.fingerprint w) hb
    omega

theorem idsOf_mem_bound (t : StackoverflowTokenizer)
    (hb : 0 < t.num_oov_buckets) (s : String) :
    ∀ v ∈ idsOf t s, v < t.vocab.length + 3 + t.num_oov_buckets := by
  intro v hv
  unfold idsOf at hv
  rcases List.mem_append.mp hv with h | h
  · rcases List.mem_append.mp h with h1 | h1
    · rcases List.mem_singleton.mp h1 with rfl
      simp [BOS]
      omega
    · rcases List.mem_map.mp h1 with ⟨w, _, rfl⟩
      have := tableLookup_lt t hb w
      omega
  · rcases List.mem_singleton.mp h with rfl
    simp [EOS]
    omega

theorem indexOf_of_get? (l : List String) (i : Nat) (w : String)
    (hg : l.get? i = some w) (hf : w ∉ l.take i) : l.indexOf w = i := by
  induction l generalizing i with
  | nil => simp at hg
  | cons a l ih =>
    cases i with
    | zero =>
      simp at hg
      subst hg
      simp [List.indexOf_cons]
    | succ j =>
      simp at hg
      have hne : w ≠ a := by
        intro h
        exact hf (by simp [List.take, h])
      have hf2 : w ∉ l.take j := fun h => hf (by simp [List.take, h])
      rw [List.indexOf_cons]
      have : (a == w) = false := by
        simp [beq_iff_eq]
        exact fun h => hne h.symm
      rw [this]
      simp [ih j (by rw [List.get?_eq_getElem?]; exact hg) hf2]

theorem mapM_unpack_ok (ls : List String)
    (h : ∀ l ∈ ls, (pySplitWs l).length = 2) :
    ls.mapM unpackWordCount = .ok (ls.map (fun l => (pySplitWs l).headD "")) := by
  induction ls with
  | nil => rfl
  | cons a as ih =>
    have ha := h a (by simp)
    have hs : ∃ w c, pySplitWs a = [w, c] := by
      cases hsp : pySplitWs a with
      | nil => simp [hsp] at ha
      | cons x xs =>
        cases xs with
        | nil => simp [hsp] at ha
        | cons y ys =>
          cases ys with
          | nil => exact ⟨x, y, rfl⟩
          | cons z zs => simp [hsp] at ha
    rcases hs with ⟨w, c, hwc⟩
    have hu : unpackWordCount a = .ok w := by simp [unpackWordCount, hwc]
    rw [List.mapM_cons, hu, ih (fun l hl => h l (by simp [hl]))]
    simp only [List.map_cons, hwc]
    rfl

theorem mapM_unpack_err (ls : List String)
    (h : ∃ l ∈ ls, (pySplitWs l).length ≠ 2) :
    ∃ e, ls.mapM unpackWordCount = .error e := by
  induction ls with
  | nil =>
    rcases h with ⟨l, hl, _⟩
    simp at hl
  | cons a as ih =>
    rcases h with ⟨l, hl, hbad⟩
    rcases List.mem_cons.mp hl with rfl | hmem
    · have herr : ∃ e, unpackWordCount l = .error e := by
        refine ⟨"ValueError: cannot unpack line " ++ l, ?_⟩
        cases hsp : pySplitWs l with
        | nil => simp [unpackWordCount, hsp]
        | cons x xs =>
          cases xs with
          | nil => simp [unpackWordCount, hsp]
          | cons y ys =>
            cases ys with
            | nil => simp [hsp] at hbad
            | cons z zs => simp [unpackWordCount, hsp]
      rcases herr with ⟨e, he⟩
      exact ⟨e, by rw [List.mapM_cons, he]; rfl⟩
    · cases hu : unpackWordCount a with
      | error e => exact ⟨e, by rw [List.mapM_cons, hu]; rfl⟩
      | ok w =>
        rcases ih ⟨l, hmem, hbad⟩ with ⟨e, he⟩
        exact ⟨e, by rw [List.mapM_cons, hu, he]; rfl⟩

/-! ### Claim theorems -/

/-- C8: assuming every line of the vocabulary source (among the first
`vocab_size`) has exactly two whitespace-separated fields,
`default_vocab(n)` returns exactly `min n file_line_count` words, the
i-th being the first field of the i-th line, in file order. -/
theorem default_vocab_ok (n : Nat) (lines : List String)
    (h : ∀ l ∈ lines.take n, (pySplitWs l).length = 2) :
    default_vocab (some n) lines =
      .ok ((lines.take n).map (fun l => (pySplitWs l).headD "")) ∧
    ((lines.take n).map (fun l => (pySplitWs l).headD "")).length =
      min n lines.length := by
  constructor
  · exact mapM_unpack_ok (lines.take n) h
  · simp [List.length_take]

/-- C8 witness: `default_vocab 2` on a three-line well-formed file. -/
theorem default_vocab_ok_witness :
    (∀ l ∈ (["a 1", "b 2", "c 3"] : List String).take 2,
      (pySplitWs l).length = 2) ∧
    (default_vocab (some 2) ["a 1", "b 2", "c 3"] =
      .ok (((["a 1", "b 2", "c 3"] : List String).take 2).map
        (fun l => (pySplitWs l).headD "")) ∧
     (((["a 1", "b 2", "c 3"] : List String).take 2).map
        (fun l => (pySplitWs l).headD "")).length =
      min 2 (["a 1", "b 2", "c 3"] : List String).length) :=
  ⟨by decide, default_vocab_ok 2 ["a 1", "b 2", "c 3"] (by decide)⟩

/-- C10: `default_vocab` fails with the tuple-unpacking `ValueError` as
soon as one of the first `vocab_size` lines does not have exactly two
whitespace-separated fields. -/
theorem default_vocab_malformed (n : Nat) (lines : List String)
    (h : ∃ l ∈ lines.take n, (pySplitWs l).length ≠ 2) :
    ∃ e, default_vocab (some n) lines = .error e :=
  mapM_unpack_err (lines.take n) h

/-- C10 witness: a one-field line among the first three lines makes
`default_vocab 3` fail. -/
theorem default_vocab_malformed_witness :
    (∃ l ∈ (["a 1", "bad", "c 3"] : List String).take 3,
      (pySplitWs l).length ≠ 2) ∧
    ∃ e, default_vocab (some 3) ["a 1", "bad", "c 3"] = .error e :=
  ⟨by decide, default_vocab_malformed 3 ["a 1", "bad", "c 3"] (by decide)⟩

/-- C9: an explicit vocabulary is truncated to its first `vocab_size`
words whenever `vocab_size` is not `None` (and `vocab_size` defaults to
10000); a word of the full vocabulary outside the truncated prefix is
out-of-vocabulary for the built table and maps to an OOV bucket id; only
`vocab_size=None` keeps the whole explicit list. -/
theorem explicit_vocab_truncation (v : List String) (k : Nat)
    (fp : String → Nat) (B : Nat) (file : List String) (w : String)
    (_hw : w ∈ v) (hnt : w ∉ v.take k) :
    initVocab (some v) (some k) file = .ok (v.take k) ∧
    initVocab (some v) defaultVocabSize file = .ok (v.take 10000) ∧
    initVocab (some v) none file = .ok v ∧
    initTokenizer fp (some v) (some k) B file = .ok ⟨v.take k, B, fp⟩ ∧
    tableLookup ⟨v.take k, B, fp⟩ w = (v.take k).length + fp w % B := by
  refine ⟨rfl, rfl, rfl, rfl, ?_⟩
  simp [tableLookup, hnt]

/-- C9 witness: vocabulary `['a','b','c']` truncated to 2 words sends
`'c'` to the OOV bucket id. -/
theorem explicit_vocab_truncation_witness :
    (("c" : String) ∈ (["a", "b", "c"] : List String) ∧
      ("c" : String) ∉ (["a", "b", "c"] : List String).take 2) ∧
    (initVocab (some ["a", "b", "c"]) (some 2) [] =
      .ok ((["a", "b", "c"] : List String).take 2) ∧
     initVocab (some ["a", "b", "c"]) defaultVocabSize [] =
      .ok ((["a", "b", "c"] : List String).take 10000) ∧
     initVocab (some ["a", "b", "c"]) none [] = .ok ["a", "b", "c"] ∧
     initTokenizer (fun _ => 0) (some ["a", "b", "c"]) (some 2) 1 [] =
      .ok ⟨(["a", "b", "c"] : List String).take 2, 1, fun _ => 0⟩ ∧
     tableLookup ⟨(["a", "b", "c"] : List String).take 2, 1, fun _ => 0⟩ "c" =
      ((["a", "b", "c"] : List String).take 2).length + (fun _ => (0 : Nat)) "c" % 1) :=
  ⟨⟨by decide, by decide⟩,
   explicit_vocab_truncation ["a", "b", "c"] 2 (fun _ => 0) 1 [] "c"
     (by decide) (by decide)⟩

/-- C2: for a tokenizer built with explicit vocabulary `['a','b']`, one
OOV bucket and the default `vocab_size`, whatever the table's
fingerprint function, the tokens string `"a b"` produces the id
sequence `[1, 3, 4, 2]` and, at `max_length = 4`, `x = [1, 3, 4, 0]`
and `y = [3, 4, 2, 0]`. -/
theorem tokenizer_round_trip (fp : String → Nat) :
    initTokenizer fp (some ["a", "b"]) defaultVocabSize 1 [] =
      .ok ⟨["a", "b"], 1, fp⟩ ∧
    idsOf ⟨["a", "b"], 1, fp⟩ "a b" = [1, 3, 4, 2] ∧
    token_to_ids ⟨["a", "b"], 1, fp⟩ 4 ["a b"] =
      ([[1, 3, 4, 0]], [[3, 4, 2, 0]]) := by
  refine ⟨rfl, rfl, rfl⟩

/-- C3 counterexample: on the tokenizer with vocabulary `['a','b']` and
one OOV bucket, the empty tokens string does not produce `[BOS, EOS]`:
splitting `""` on `' '` yields the single empty word, which is
out-of-vocabulary (id `2 + 3 = 5`), so the id sequence is `[1, 5, 2]`
and at `max_length = 4` the output is `x = [1,5,0,0]`, `y = [5,2,0,0]`,
not the claimed `x = [1,2,0,0]`, `y = [2,0,0,0]`. -/
theorem empty_tokens_counterexample :
    idsOf tokAB "" = [1, 5, 2] ∧
    token_to_ids tokAB 4 [""] = ([[1, 5, 0, 0]], [[5, 2, 0, 0]]) ∧
    token_to_ids tokAB 4 [""] ≠ ([[1, 2, 0, 0]], [[2, 0, 0, 0]]) := by
  decide

/-- C3 amended: for every tokenizer whose vocabulary does not contain
the empty word and every `max_length ≥ 2`, the empty tokens string
raises no error and produces the id sequence `[BOS, oov, EOS]` where
`oov = len(vocab) + fingerprint("") % num_oov_buckets + 3` is the OOV id
of the single empty word produced by splitting `""`; `x = [BOS, oov]`
right-padded with PAD to `max_length` and `y = [oov, EOS]` right-padded
with PAD to `max_length`. -/
theorem empty_tokens_amended (t : StackoverflowTokenizer) (m : Nat)
    (hm : 2 ≤ m) (hv : "" ∉ t.vocab) :
    idsOf t "" =
      [BOS, t.vocab.length + t.fingerprint "" % t.num_oov_buckets + 3, EOS] ∧
    token_to_ids t m [""] =
      ([[BOS, t.vocab.length + t.fingerprint "" % t.num_oov_buckets + 3] ++
          List.replicate (m - 2) PAD],
       [[t.vocab.length + t.fingerprint "" % t.num_oov_buckets + 3, EOS] ++
          List.replicate (m - 2) PAD]) := by
  have hpad : ∀ a b : Nat, padTo m [a, b] = [a, b] ++ List.replicate (m - 2) PAD := by
    intro a b
    unfold padTo
    rw [List.take_of_length_le (by simp; omega)]
    rfl
  have hids : idsOf t "" =
      [BOS, t.vocab.length + t.fingerprint "" % t.num_oov_buckets + 3, EOS] := by
    simp [idsOf, pySplitSpace, splitChars, tableLookup, hv]
  refine ⟨hids, ?_⟩
  show ([padTo m ((idsOf t "").dropLast)], [padTo m ((idsOf t "").drop 1)]) = _
  rw [hids]
  show ([padTo m [BOS, t.vocab.length + t.fingerprint "" % t.num_oov_buckets + 3]],
        [padTo m [t.vocab.length + t.fingerprint "" % t.num_oov_buckets + 3, EOS]]) = _
  rw [hpad, hpad]

/-- C3 witness: the amended statement at the concrete tokenizer `tokAB`
and `max_length = 4`. -/
theorem empty_tokens_amended_witness :
    2 ≤ 4 ∧ "" ∉ tokAB.vocab ∧
    (idsOf tokAB "" =
      [BOS, tokAB.vocab.length + tokAB.fingerprint "" % tokAB.num_oov_buckets + 3, EOS] ∧
     token_to_ids tokAB 4 [""] =
      ([[BOS, tokAB.vocab.length + tokAB.fingerprint "" % tokAB.num_oov_buckets + 3] ++
          List.replicate (4 - 2) PAD],
       [[tokAB.vocab.length + tokAB.fingerprint "" % tokAB.num_oov_buckets + 3, EOS] ++
          List.replicate (4 - 2) PAD])) :=
  ⟨by decide, by decide, empty_tokens_amended tokAB 4 (by decide) (by decide)⟩

/-- C1 counterexample: on the tokenizer with vocabulary `['a','b']` and
`max_length = 4`, the tokens string `"a"` has `ids = [1, 3, 2]`; the
code's padded `x` row is `[1, 3, 0, 0]` (the final id is dropped before
truncation and padding), not the padded spec slice
`ids[0 : max_length] = [1, 3, 2]` padded to `[1, 3, 2, 0]`. -/
theorem xy_slice_counterexample :
    idsOf tokAB "a" = [1, 3, 2] ∧
    token_to_ids tokAB 4 ["a"] = ([[1, 3, 0, 0]], [[3, 2, 0, 0]]) ∧
    [padTo 4 (specX 4 (idsOf tokAB "a"))] = [[1, 3, 2, 0]] ∧
    (token_to_ids tokAB 4 ["a"]).1 ≠ [padTo 4 (specX 4 (idsOf tokAB "a"))] := by
  decide

/-- C1 amended: for every example processed by the batch transform, with
`ids` as in the claim, `x` equals `ids` with its final id dropped and
then right-truncated to `max_length` (this equals `ids[0 : max_length]`
only when `len(ids) ≥ max_length + 1`), and `y` equals
`ids[1 : max_length + 1]`, before padding. -/
theorem xy_slice_amended (t : StackoverflowTokenizer) (m : Nat)
    (tokens : List String) :
    (token_to_ids t m tokens).1 =
      tokens.map (fun s => padTo m ((idsOf t s).dropLast)) ∧
    (token_to_ids t m tokens).2 =
      tokens.map (fun s => padTo m (specY m (idsOf t s))) := by
  have hx : (token_to_ids t m tokens).1 =
      tokens.map (fun s => padTo m ((idsOf t s).dropLast)) := by
    simp [token_to_ids, List.map_map, Function.comp]
  have hy : (token_to_ids t m tokens).2 =
      tokens.map (fun s => padTo m ((idsOf t s).drop 1)) := by
    simp [token_to_ids, List.map_map, Function.comp]
  refine ⟨hx, ?_⟩
  rw [hy]
  refine List.map_congr_left ?_
  intro s _
  rw [specY, List.drop_take, Nat.add_sub_cancel, padTo_take]

/-- C4: for every batch of `N` tokens strings (including `N = 0`) and
every `max_length`, the transform returns `x` and `y` as dense
`[N, max_length]` arrays of integers representable in 32 bits (given the
constructible table bound `vocab_size + 3 + num_oov_buckets ≤ 2^31`):
every row is exactly `max_length` long (so a string producing more than
`max_length + 1` ids is right-truncated to exactly `max_length`), and an
empty batch yields an empty batch. -/
theorem batch_dense_shape (t : StackoverflowTokenizer) (m : Nat)
    (tokens : List String) (hb : 0 < t.num_oov_buckets)
    (hsize : t.vocab.length + 3 + t.num_oov_buckets ≤ 2 ^ 31) :
    (token_to_ids t m tokens).1.length = tokens.length ∧
    (token_to_ids t m tokens).2.length = tokens.length ∧
    (∀ r ∈ (token_to_ids t m tokens).1, r.length = m) ∧
    (∀ r ∈ (token_to_ids t m tokens).2, r.length = m) ∧
    (tokens = [] → token_to_ids t m tokens = ([], [])) ∧
    (∀ r ∈ (token_to_ids t m tokens).1, ∀ v ∈ r, v < 2 ^ 31) ∧
    (∀ r ∈ (token_to_ids t m tokens).2, ∀ v ∈ r, v < 2 ^ 31) := by
  have hbound : ∀ s : String, ∀ v ∈ idsOf t s, v < 2 ^ 31 := fun s v hv =>
    lt_of_lt_of_le (idsOf_mem_bound t hb s v hv) hsize
  refine ⟨by simp [token_to_ids], by simp [token_to_ids], ?_, ?_, ?_, ?_, ?_⟩
  · intro r hr
    simp [token_to_ids] at hr
    rcases hr with ⟨s, _, rfl⟩
    exact padTo_length m _
  · intro r hr
    simp [token_to_ids] at hr
    rcases hr with ⟨s, _, rfl⟩
    exact padTo_length m _
  · intro h
    subst h
    rfl
  · intro r hr v hv
    simp [token_to_ids] at hr
    rcases hr with ⟨s, _, rfl⟩
    refine padTo_mem_bound m _ _ ?_ (by norm_num) v hv
    intro u hu
    exact hbound s u (List.dropLast_subset _ hu)
  · intro r hr v hv
    simp [token_to_ids] at hr
    rcases hr with ⟨s, _, rfl⟩
    refine padTo_mem_bound m _ _ ?_ (by norm_num) v hv
    intro u hu
    exact hbound s u (List.drop_subset 1 _ hu)

/-- C4 witness: the shape statement at `tokAB`, `max_length = 4`, on a
two-string batch (one of which over-fills `max_length`). -/
theorem batch_dense_shape_witness :
    (0 < tokAB.num_oov_buckets ∧
     tokAB.vocab.length + 3 + tokAB.num_oov_buckets ≤ 2 ^ 31) ∧
    ((token_to_ids tokAB 4 ["a b a b a b", "a"]).1.length =
       (["a b a b a b", "a"] : List String).length ∧
     (token_to_ids tokAB 4 ["a b a b a b", "a"]).2.length =
       (["a b a b a b", "a"] : List String).length ∧
     (∀ r ∈ (token_to_ids tokAB 4 ["a b a b a b", "a"]).1, r.length = 4) ∧
     (∀ r ∈ (token_to_ids tokAB 4 ["a b a b a b", "a"]).2, r.length = 4) ∧
     ((["a b a b a b", "a"] : List String) = [] →
       token_to_ids tokAB 4 ["a b a b a b", "a"] = ([], [])) ∧
     (∀ r ∈ (token_to_ids tokAB 4 ["a b a b a b", "a"]).1, ∀ v ∈ r, v < 2 ^ 31) ∧
     (∀ r ∈ (token_to_ids tokAB 4 ["a b a b a b", "a"]).2, ∀ v ∈ r, v < 2 ^ 31)) :=
  ⟨⟨by decide, by decide⟩,
   batch_dense_shape tokAB 4 ["a b a b a b", "a"] (by decide) (by decide)⟩

/-- C5: every id produced by the vocabulary/OOV lookup plus the offset 3
lies in `[3, V + 3 + B)`; a word first occurring at vocabulary position
`i` maps to `i + 3`; an out-of-vocabulary word maps into
`[V + 3, V + 3 + B)`; the lookup never produces PAD, BOS or EOS. -/
theorem lookup_id_range (t : StackoverflowTokenizer) (w : String)
    (hb : 0 < t.num_oov_buckets) :
    (3 ≤ tableLookup t w + 3 ∧
     tableLookup t w + 3 < t.vocab.length + 3 + t.num_oov_buckets) ∧
    (∀ i, t.vocab.get? i = some w → w ∉ t.vocab.take i →
      tableLookup t w + 3 = i + 3) ∧
    (w ∉ t.vocab →
      t.vocab.length + 3 ≤ tableLookup t w + 3 ∧
      tableLookup t w + 3 < t.vocab.length + 3 + t.num_oov_buckets) ∧
    (tableLookup t w + 3 ≠ PAD ∧ tableLookup t w + 3 ≠ BOS ∧
     tableLookup t w + 3 ≠ EOS) := by
  have hlt := tableLookup_lt t hb w
  refine ⟨⟨by omega, by omega⟩, ?_, ?_, ?_⟩
  · intro i hg hf
    have hmem : w ∈ t.vocab := List.get?_mem hg
    have : tableLookup t w = i := by
      unfold tableLookup
      rw [if_pos hmem, indexOf_of_get? t.vocab i w hg hf]
    omega
  · intro hnm
    unfold tableLookup
    rw [if_neg hnm]
    have := Nat.mod_lt (t.fingerprint w) hb
    constructor <;> omega
  · refine ⟨?_, ?_, ?_⟩ <;> simp [PAD, BOS, EOS]

/-- C5 witness: the range statement at `tokAB` and the word `'a'`. -/
theorem lookup_id_range_witness :
    0 < tokAB.num_oov_buckets ∧
    ((3 ≤ tableLookup tokAB "a" + 3 ∧
      tableLookup tokAB "a" + 3 <
        tokAB.vocab.length + 3 + tokAB.num_oov_buckets) ∧
     (∀ i, tokAB.vocab.get? i = some "a" → "a" ∉ tokAB.vocab.take i →
       tableLookup tokAB "a" + 3 = i + 3) ∧
     ("a" ∉ tokAB.vocab →
       tokAB.vocab.length + 3 ≤ tableLookup tokAB "a" + 3 ∧
       tableLookup tokAB "a" + 3 <
         tokAB.vocab.length + 3 + tokAB.num_oov_buckets) ∧
     (tableLookup tokAB "a" + 3 ≠ PAD ∧ tableLookup tokAB "a" + 3 ≠ BOS ∧
      tableLookup tokAB "a" + 3 ≠ EOS)) :=
  ⟨by decide, lookup_id_range tokAB "a" (by decide)⟩

/-- C6: `load_split` returns a handle for each of the three split names
in `'sqlite'` mode, and fails with an invalid-argument `ValueError` for
any other split name, for any non-`'sqlite'` mode, and in particular
whenever `cache_dir` is supplied with a non-`'sqlite'` mode. -/
theorem load_split_validation :
    (∀ split ∈ SPLITS, ∀ cache_dir,
      ∃ fd, load_split split "sqlite" cache_dir = .ok fd) ∧
    (∀ split, split ∉ SPLITS → ∀ mode cache_dir,
      ∃ e, load_split split mode cache_dir = .error e) ∧
    (∀ split mode cache_dir, mode ≠ "sqlite" →
      ∃ e, load_split split mode cache_dir = .error e) := by
  refine ⟨?_, ?_, ?_⟩
  · intro split hs cache_dir
    exact ⟨_, by
      unfold load_split
      rw [if_neg (not_not_intro hs), if_neg (by simp), if_pos rfl]⟩
  · intro split hs mode cache_dir
    exact ⟨_, by unfold load_split; rw [if_pos hs]⟩
  · intro split mode cache_dir hm
    unfold load_split
    by_cases hs : split ∉ SPLITS
    · exact ⟨_, by rw [if_pos hs]⟩
    · rw [if_neg hs]
      cases cache_dir with
      | some d => exact ⟨_, by rw [if_pos ⟨by simp, hm⟩]⟩
      | none => exact ⟨_, by rw [if_neg (by simp), if_neg hm]⟩

/-- C6 witness: the `'train'` split loads in `'sqlite'` mode. -/
theorem load_split_validation_witness :
    ("train" : String) ∈ SPLITS ∧
    ∃ fd, load_split "train" "sqlite" none = .ok fd :=
  ⟨by decide, load_split_validation.1 "train" (by decide) none⟩

/-- A raw client record with all six documented features and a
two-example question/answer `type` column. -/
def exampleRecord : Examples :=
  [("creation_date", .bytes ["2018-02-28 19:06:18.34 UTC", "2018-03-01 01:02:03.04 UTC"]),
   ("title", .bytes ["t1", "t2"]),
   ("score", .ints [10, 2]),
   ("tags", .bytes ["mysql|join", "python"]),
   ("tokens", .bytes ["a b", "c"]),
   ("type", .bytes ["question", "answer"])]

/-- C7: `preprocess_client` returns a record with exactly the fields
`domain_id` (1 where `type == b'answer'`, else 0) and `tokens` (passed
through unchanged); all other fields are dropped and the result does not
depend on the `client_id` argument. -/
theorem preprocess_client_spec (cid cid2 : String) (ex : Examples)
    (types : List String) (toks : Value)
    (hty : ex.lookup "type" = some (.bytes types))
    (htk : ex.lookup "tokens" = some toks) :
    preprocess_client cid ex =
      .ok [("domain_id",
             .ints (types.map (fun t => if t = "answer" then (1 : Int) else 0))),
           ("tokens", toks)] ∧
    preprocess_client cid ex = preprocess_client cid2 ex := by
  unfold preprocess_client
  rw [hty, htk]
  exact ⟨rfl, rfl⟩

/-- C7 witness: on the full six-feature record with
`type = [question, answer]`, the result is exactly
`domain_id = [0, 1]` plus the untouched `tokens`. -/
theorem preprocess_client_spec_witness :
    (exampleRecord.lookup "type" = some (.bytes ["question", "answer"]) ∧
     exampleRecord.lookup "tokens" = some (.bytes ["a b", "c"])) ∧
    (preprocess_client "client0" exampleRecord =
      .ok [("domain_id",
             .ints ((["question", "answer"] : List String).map
               (fun t => if t = "answer" then (1 : Int) else 0))),
           ("tokens", .bytes ["a b", "c"])] ∧
     preprocess_client "client0" exampleRecord =
       preprocess_client "client1" exampleRecord) :=
  ⟨⟨by decide, by decide⟩,
   preprocess_client_spec "client0" "client1" exampleRecord
     ["question", "answer"] (.bytes ["a b", "c"]) (by decide) (by decide)⟩

end Stackoverflow
